import Mathlib

/-!
Shallow embedding of `src/critter_finder.py` (critter_finder): a linear
pipeline that collects wildlife observations, enriches them with weather
data and aggregates per-species weather statistics.

Modelling conventions:
* numeric weather values are exact rationals (`ℚ`); timestamps are epoch
  seconds (`ℤ`); `relativedelta(days=2)` is `2 * 86400` seconds;
* Python `None` is `Option.none`; a fallible HTTP call is a parameter of
  type `Except Unit _` (`.error` = `requests.RequestException`);
* Python exceptions that can escape a function are the `Except` error
  side of its embedding (`PyError`);
* Python dicts keyed by id / species are association lists preserving
  insertion order, with last-seen-wins overwrite, as Python dicts do.
-/

namespace CritterFinder

/-- Uncaught Python exceptions the embedded code can raise:
`observation["time_observed_at"]` on a record missing that key
(KeyError, line 52), `observation["observation_photos"][0]` on an empty
array (IndexError, line 65) and `sum` over a list containing `None`
(TypeError, lines 203-204). -/
inductive PyError where
  | keyError
  | indexError
  | typeError
deriving DecidableEq, Repr

/-- The weather dict built by `get_weather_for_observation` (line 249):
both fields independently nullable. -/
structure WeatherSample where
  avg_temp : Option ℚ
  rain : Option ℚ
deriving DecidableEq, Repr

/-- One entry of the climate API's `results` list (lines 250-254). -/
structure ClimateRecord where
  datatype : String
  value : ℚ
deriving DecidableEq, Repr

/-- Loop body of lines 250-254: each matching record overwrites the
field, so a later record wins. -/
def updateWeather (w : WeatherSample) (r : ClimateRecord) : WeatherSample :=
  if r.datatype == "TAVG" then { w with avg_temp := some r.value }
  else if r.datatype == "PRCP" then { w with rain := some r.value }
  else w

/-- `get_weather_for_observation` (lines 230-258).  The HTTP exchange is
abstracted to its outcome: `.error` is a `requests.RequestException`
(caught at line 256, returning `None`); `.ok results` is a parsed
response's `results` list, folded over by lines 250-254 starting from
`{"avg_temp": None, "rain": None}`. -/
def get_weather_for_observation :
    Except Unit (List ClimateRecord) → Option WeatherSample
  | .error _ => none
  | .ok results => some (results.foldl updateWeather ⟨none, none⟩)

/-- Value of the last record of the given datatype in a response, if
any.  Used to state what the overwrite loop of lines 250-254 computes. -/
def lastValue (results : List ClimateRecord) (dt : String) : Option ℚ :=
  ((results.filter (fun r => r.datatype == dt)).getLast?).map (fun r => r.value)

/-- One raw record of the biodiversity API's `results` list, with the
fields lines 50-68 read.  `time_observed_at` is `none` when the key is
missing entirely — line 52's direct subscript then raises KeyError —
and `some none` when the key is present with a null value, which makes
line 54's truthiness test fail and the record be skipped silently. -/
structure ApiRecord where
  id : Nat
  time_observed_at : Option (Option Int)
  species_guess : String
  place_guess : String
  location : String
  observation_photos : List String
deriving DecidableEq, Repr

/-- The normalized observation dict built at lines 60-68, plus the
`weather` key `main` adds at line 279 (`none` until then, and also when
the weather lookup returned `None`). -/
structure Observation where
  datetime : Int
  species : String
  zip_code : String
  coordinates : String
  photo_url : String
  weather : Option WeatherSample := none
deriving DecidableEq, Repr

/-- Python `\w` for the regex of line 58 (ASCII fragment). -/
def isWordChar (c : Char) : Bool := c.isAlphanum || c = '_'

/-- Python `\s` (ASCII fragment): space, tab, newline, CR, VT, FF. -/
def isSpaceChar (c : Char) : Bool :=
  c = ' ' || c = '\t' || c = '\n' || c = '\r' || c = '\x0b' || c = '\x0c'

/-- The character class `[-\s]` of line 58's regex. -/
def isSepChar (c : Char) : Bool := c = '-' || isSpaceChar c

def optWord (a : Option Char) : Bool :=
  match a with
  | none => false
  | some c => isWordChar c

/-- Regex word boundary `\b` between an optional previous and next
character. -/
def boundary (a b : Option Char) : Bool := optWord a != optWord b

/-- `\b` right after a digit: the next character must not be a word
character. -/
def endBoundary (next : Option Char) : Bool := !(optWord next)

/-- Split off exactly `n` leading digits (`\d{n}`), returning them and
the remainder. -/
def splitDigits : Nat → List Char → Option (List Char × List Char)
  | 0, l => some ([], l)
  | _ + 1, [] => none
  | n + 1, c :: rest =>
    if c.isDigit then (splitDigits n rest).map (fun p => (c :: p.1, p.2)) else none

/-- `\d{4}\b` against a tail of the subject. -/
def tryPlus4 (tail : List Char) : Option (List Char) :=
  match splitDigits 4 tail with
  | some (d4, rest2) => if endBoundary rest2.head? then some d4 else none
  | none => none

/-- Fallback alternatives of `(?:[-\s]?\d{4})?\b` after the five digits
when no separator is consumed: four more digits and a boundary, else the
empty option followed by a boundary. -/
def noSepBranch (d5 rest : List Char) : Option (List Char) :=
  match tryPlus4 rest with
  | some d4 => some (d5 ++ d4)
  | none => if endBoundary rest.head? then some d5 else none

/-- Continuation after `\b\d{5}` has consumed `d5`: the alternatives of
the greedy group in backtracking order — separator plus four digits,
then four digits without separator, then the bare five digits, each
followed by the `\b` test. -/
def afterFive (d5 : List Char) : List Char → Option (List Char)
  | c :: rest1 =>
    if isSepChar c then
      match tryPlus4 rest1 with
      | some d4 => some (d5 ++ c :: d4)
      | none => noSepBranch d5 (c :: rest1)
    else noSepBranch d5 (c :: rest1)
  | [] => noSepBranch d5 []

/-- Match of `\b\d{5}(?:[-\s]?\d{4})?\b` (line 58) anchored at the start
of `l`, with `prev` the character before the anchor. -/
def matchAt (prev : Option Char) (l : List Char) : Option (List Char) :=
  if boundary prev l.head? then
    match splitDigits 5 l with
    | none => none
    | some (d5, rest) => afterFive d5 rest
  else none

/-- `re.search`: try the pattern at each position, left to right,
carrying the previous character for the `\b` test. -/
def reSearch (prev : Option Char) : List Char → Option (List Char)
  | [] => matchAt prev []
  | c :: rest =>
    match matchAt prev (c :: rest) with
    | some m => some m
    | none => reSearch (some c) rest

/-- `re.search(r"\b\d{5}(?:[-\s]?\d{4})?\b", s)` followed by `.group()`
(lines 58 and 63). -/
def zipSearch (s : String) : Option String :=
  (reSearch none s.toList).map String.mk

/-- Spec-side shape of a postal-code token: five digits, optionally
followed by four more digits with an optional single hyphen/whitespace
separator (the spec's "5-digit or ZIP+4 (5+4-digit) pattern"). -/
def isZipToken (l : List Char) : Bool :=
  match splitDigits 5 l with
  | none => false
  | some (_, rest) =>
    match rest with
    | [] => true
    | [c1, c2, c3, c4] => c1.isDigit && c2.isDigit && c3.isDigit && c4.isDigit
    | [c0, c1, c2, c3, c4] =>
      isSepChar c0 && (c1.isDigit && c2.isDigit && c3.isDigit && c4.isDigit)
    | _ => false

/-- Spec-side: `tok` occurs in `s` as a substring delimited by word
boundaries on both sides. -/
def occursDelimited (s : String) (tok : List Char) : Prop :=
  ∃ pre post, s.toList = pre ++ tok ++ post ∧
    boundary pre.getLast? tok.head? = true ∧
    boundary tok.getLast? post.head? = true

/-- Explicit decomposition of a postal-code token: five digits, nine
digits, or five digits, a separator and four digits. -/
def ZipShape (tok : List Char) : Prop :=
  (tok.length = 5 ∧ ∀ c ∈ tok, c.isDigit = true) ∨
  (∃ d5 d4, tok = d5 ++ d4 ∧ d5.length = 5 ∧ d4.length = 4 ∧
    (∀ c ∈ d5, c.isDigit = true) ∧ (∀ c ∈ d4, c.isDigit = true)) ∨
  (∃ d5 c d4, tok = d5 ++ c :: d4 ∧ d5.length = 5 ∧ d4.length = 4 ∧ isSepChar c = true ∧
    (∀ x ∈ d5, x.isDigit = true) ∧ (∀ x ∈ d4, x.isDigit = true))

/-- The character just before a search position: the last character of
the consumed prefix, or the initial context when nothing was consumed. -/
def lastCtx (prev : Option Char) (pre : List Char) : Option Char :=
  pre.getLast?.or prev

/-- `relativedelta(days=2)` in epoch seconds. -/
def twoDaysSecs : Int := 2 * 86400

/-- Per-record body of the collector loop (lines 50-69): the
`observation["time_observed_at"]` subscript of line 52 (KeyError when
the key is missing), the timestamp truthiness and freshness test of
line 54, postal-code extraction, observation construction.
`observation_photos[0]` on an empty array raises IndexError (line 65). -/
def processRecord (now : Int) (r : ApiRecord) : Except PyError (Option Observation) :=
  match r.time_observed_at with
  | none => .error PyError.keyError
  | some none => .ok none
  | some (some t) =>
    if t < now - twoDaysSecs then
      match zipSearch r.place_guess with
      | none => .ok none
      | some z =>
        match r.observation_photos with
        | [] => .error PyError.indexError
        | u :: _ =>
          .ok (some { datetime := t, species := r.species_guess, zip_code := z,
                      coordinates := r.location, photo_url := u })
    else .ok none

/-- Python-dict assignment `observations[observation_id] = ...`:
overwrite in place if the key exists, else append. -/
def updateAssoc : List (Nat × Observation) → Nat → Observation → List (Nat × Observation)
  | [], k, v => [(k, v)]
  | p :: ps, k, v => if p.1 = k then (k, v) :: ps else p :: updateAssoc ps k v

/-- The `for observation in observation_response` loop (lines 50-69). -/
def collectLoop (now : Int) :
    List ApiRecord → List (Nat × Observation) → Except PyError (List (Nat × Observation))
  | [], acc => .ok acc
  | r :: rs, acc =>
    match processRecord now r with
    | .error e => .error e
    | .ok none => collectLoop now rs acc
    | .ok (some o) => collectLoop now rs (updateAssoc acc r.id o)

/-- `get_inaturalist_observations` (lines 33-72).  `fetch` abstracts the
HTTP exchange: `.error` is a `requests.RequestException` (raised by the
request itself or by `raise_for_status` on a non-2xx status), caught at
line 70 so the function returns the still-empty dict; `.ok records` is
the parsed `results` list. -/
def get_inaturalist_observations (now : Int) :
    Except Unit (List ApiRecord) → Except PyError (List (Nat × Observation))
  | .error _ => .ok []
  | .ok records => collectLoop now records []

/-- Per-species sample lists: label, `avg_temp` samples, `rain` samples
(the dict built at lines 183-192). -/
abbrev SpeciesGroup := String × List (Option ℚ) × List (Option ℚ)

/-- `species_weather.setdefault(...)` plus the two appends (lines
190-192): extend the existing group in place, else append a new one. -/
def addSample : List SpeciesGroup → String → Option ℚ → Option ℚ → List SpeciesGroup
  | [], sp, t, r => [(sp, [t], [r])]
  | g :: gs, sp, t, r =>
    if g.1 = sp then (sp, g.2.1 ++ [t], g.2.2 ++ [r]) :: gs
    else g :: addSample gs sp t r

/-- The grouping loop of lines 184-192: observations with a falsy
(`None`) weather are skipped; for the rest, `weather.get("avg_temp", 0)`
and `weather.get("rain", 0)` return the stored values — possibly `None`,
since both keys are always present in the dict built at line 249 — and
are appended as-is. -/
def buildGroups : List (Nat × Observation) → List SpeciesGroup → List SpeciesGroup
  | [], gs => gs
  | p :: ps, gs =>
    match p.2.weather with
    | none => buildGroups ps gs
    | some w => buildGroups ps (addSample gs p.2.species w.avg_temp w.rain)

/-- Line 181: drop observations whose species label is falsy (empty). -/
def filterSpecies (observations : List (Nat × Observation)) : List (Nat × Observation) :=
  observations.filter (fun p => p.2.species != "")

/-- Lines 194-198: keep a group only if its label is truthy and both
sample lists are non-empty (list truthiness — `None` entries still count). -/
def keptGroups (observations : List (Nat × Observation)) : List SpeciesGroup :=
  (buildGroups (filterSpecies observations) []).filter
    (fun g => g.1 != "" && !g.2.1.isEmpty && !g.2.2.isEmpty)

/-- Python `sum` over a list of nullable numbers: starts from `0`,
raises TypeError as soon as a `None` participates in an addition. -/
def pySum : List (Option ℚ) → Except PyError ℚ
  | [] => .ok 0
  | none :: _ => .error PyError.typeError
  | some v :: xs => (pySum xs).map (fun acc => v + acc)

/-- Python `int()`: truncation toward zero. -/
def pyInt (q : ℚ) : ℤ := if 0 ≤ q then ⌊q⌋ else ⌈q⌉

/-- One aggregated row (lines 200-207). -/
structure SpeciesAgg where
  species : String
  avg_temp : ℤ
  rain : ℚ
deriving DecidableEq, Repr

/-- One entry of the comprehension at lines 200-207:
`int(sum(temps)/len(temps))` and `sum(rains)`; either `sum` raises
TypeError when a `None` sample is present. -/
def aggOne (g : SpeciesGroup) : Except PyError SpeciesAgg := do
  let ts ← pySum g.2.1
  let rs ← pySum g.2.2
  pure ⟨g.1, pyInt (ts / (g.2.1.length : ℚ)), rs⟩

/-- Aggregation core of `plot_weather_data` (lines 181-209).  The
`dropna` of line 209 is an identity here: the aggregated values are
exact rationals, never NaN.  The chart drawing below line 210 is
presentation only and is not modelled. -/
def plot_weather_data (observations : List (Nat × Observation)) :
    Except PyError (List SpeciesAgg) :=
  (keptGroups observations).mapM aggOne

/-- Sum of the non-null samples of a list.  Used for spec-side
statements about what the aggregation computes on fully valid groups. -/
def osum (l : List (Option ℚ)) : ℚ := (l.filterMap id).sum

/-- Follows the spec's words: for each kept species group, `mean_temp`
is the integer truncation of the arithmetic mean of the temperature
samples and `total_rain` their arithmetic sum. -/
def specAggregates (observations : List (Nat × Observation)) : List SpeciesAgg :=
  (keptGroups observations).map
    (fun g => ⟨g.1, pyInt (osum g.2.1 / (g.2.1.length : ℚ)), osum g.2.2⟩)

/-- An observation whose weather, when present, has both fields
non-null: the inputs on which line 203's `sum` cannot raise. -/
def validWeatherB (p : Nat × Observation) : Bool :=
  match p.2.weather with
  | none => true
  | some w => w.avg_temp.isSome && w.rain.isSome

/-- The enrichment loop of lines 278-281: sets each observation's
`weather` key from the climate lookup, abstracted as a function of the
stored postal code and timestamp. -/
def enrich (weatherFor : String → Int → Option WeatherSample)
    (observations : List (Nat × Observation)) : List (Nat × Observation) :=
  observations.map (fun p => (p.1, { p.2 with weather := weatherFor p.2.zip_code p.2.datetime }))

/-- A record passing the timestamp and postal-code filters but having an
empty photo array: `observation_photos[0]` raises IndexError. -/
def triggersIndexError (now : Int) (r : ApiRecord) : Prop :=
  (∃ t, r.time_observed_at = some (some t) ∧ t < now - twoDaysSecs) ∧
  (zipSearch r.place_guess).isSome = true ∧ r.observation_photos = []

/-- All samples of a group are non-null: the groups on which line 203's
`sum` cannot raise. -/
def groupValid (g : SpeciesGroup) : Prop :=
  (∀ x ∈ g.2.1, x.isSome = true) ∧ (∀ x ∈ g.2.2, x.isSome = true)

/-- Outcome of a completed run of `main`. -/
inductive MainResult where
  | noObservations
  | completed (aggregates : List SpeciesAgg)
deriving DecidableEq, Repr

/-- `main` (lines 261-288) after input validation: collect, report and
stop when the mapping is empty (lines 274-276), otherwise enrich and
aggregate.  The spinner thread and the map rendering are presentation
only and are not modelled; an uncaught Python exception surfaces as
`.error`. -/
def main (now : Int) (fetch : Except Unit (List ApiRecord))
    (weatherFor : String → Int → Option WeatherSample) : Except PyError MainResult :=
  match get_inaturalist_observations now fetch with
  | .error e => .error e
  | .ok observations =>
    if observations.isEmpty then .ok MainResult.noObservations
    else (plot_weather_data (enrich weatherFor observations)).map MainResult.completed

/-! ### Helper lemmas -/

theorem option_map_or (a b : Option α) (f : α → β) :
    (a.or b).map f = (a.map f).or (b.map f) := by
  cases a <;> rfl

theorem getLast?_cons_or (x : α) (l : List α) :
    (x :: l).getLast? = l.getLast?.or (some x) := by
  induction l generalizing x with
  | nil => rfl
  | cons y l ih =>
    rw [List.getLast?_cons_cons, ih y]
    cases l.getLast? <;> rfl

theorem lastValue_cons (r : ClimateRecord) (rs : List ClimateRecord) (dt : String) :
    lastValue (r :: rs) dt =
      (lastValue rs dt).or (if r.datatype == dt then some r.value else none) := by
  unfold lastValue
  rw [List.filter_cons]
  by_cases h : (r.datatype == dt) = true
  · rw [if_pos h, if_pos h, getLast?_cons_or, option_map_or]
    rfl
  · rw [if_neg h, if_neg h, Option.or_none]

theorem foldl_updateWeather_eq (results : List ClimateRecord) :
    ∀ w, results.foldl updateWeather w =
      ⟨(lastValue results ("TAVG")).or w.avg_temp, (lastValue results ("PRCP")).or w.rain⟩ := by
  induction results with
  | nil => intro w; simp [lastValue]
  | cons r rs ih =>
    intro w
    rw [List.foldl_cons, ih, lastValue_cons, lastValue_cons]
    unfold updateWeather
    by_cases hT : (r.datatype == "TAVG") = true
    · have hT' : r.datatype = "TAVG" := by simpa using hT
      simp [hT', Option.or_assoc]
    · by_cases hP : (r.datatype == "PRCP") = true
      · have hP' : r.datatype = "PRCP" := by simpa using hP
        simp [hP', Option.or_assoc]
      · simp [hT, hP]

/-! ### Claim theorems: Weather Enricher -/

/-- C2 (counterexample): for a response with two TAVG and two PRCP
records, the Enricher keeps the value of the LAST record of each type
(60 and 2), not of the first (50 and 1) as the claim states. -/
theorem c2_first_value_refuted :
    get_weather_for_observation
        (.ok [⟨"TAVG", 50⟩, ⟨"TAVG", 60⟩, ⟨"PRCP", 1⟩, ⟨"PRCP", 2⟩]) =
      some ⟨some 60, some 2⟩ ∧
    get_weather_for_observation
        (.ok [⟨"TAVG", 50⟩, ⟨"TAVG", 60⟩, ⟨"PRCP", 1⟩, ⟨"PRCP", 2⟩]) ≠
      some ⟨some 50, some 1⟩ := by
  constructor
  · rfl
  · intro h
    rw [show get_weather_for_observation
          (.ok [⟨"TAVG", 50⟩, ⟨"TAVG", 60⟩, ⟨"PRCP", 1⟩, ⟨"PRCP", 2⟩]) =
        some ⟨some 60, some 2⟩ from rfl] at h
    simp only [Option.some.injEq, WeatherSample.mk.injEq] at h
    exact absurd h.1 (by norm_num)

/-- C2 (amended): since each matching record overwrites the field
(lines 251-254), `avg_temp` ends as the value of the last TAVG record
and `rain` as the value of the last PRCP record of the response. -/
theorem c2_last_value_wins (results : List ClimateRecord) :
    get_weather_for_observation (.ok results) =
      some ⟨lastValue results ("TAVG"), lastValue results ("PRCP")⟩ := by
  show some (results.foldl updateWeather ⟨none, none⟩) = _
  rw [foldl_updateWeather_eq]
  simp

/-- C3 (counterexample): when the climate API succeeds but its results
hold no TAVG and no PRCP record, the Enricher does NOT leave the
weather null/absent: it returns a WeatherSample dict with both fields
null, which is a truthy (non-`None`) value. -/
theorem c3_absent_weather_refuted :
    get_weather_for_observation (.ok [⟨"TMAX", 80⟩]) = some ⟨none, none⟩ ∧
    get_weather_for_observation (.ok [⟨"TMAX", 80⟩]) ≠ none := by
  refine ⟨rfl, ?_⟩
  simp [get_weather_for_observation]

/-- C3 (amended): on a successful response with no TAVG and no PRCP
entry the Enricher returns a WeatherSample with both fields null (the
observation's `weather` is then set to that non-null dict); only a
request failure yields null. -/
theorem c3_null_fields_on_no_match (results : List ClimateRecord) (u : Unit)
    (h : ∀ r ∈ results, r.datatype ≠ "TAVG" ∧ r.datatype ≠ "PRCP") :
    get_weather_for_observation (.ok results) = some ⟨none, none⟩ ∧
    get_weather_for_observation (.error u) = none := by
  refine ⟨?_, rfl⟩
  show some (results.foldl updateWeather ⟨none, none⟩) = _
  rw [foldl_updateWeather_eq]
  have hT : lastValue results ("TAVG") = none := by
    unfold lastValue
    rw [List.filter_eq_nil_iff.mpr (fun r hr => by simpa using (h r hr).1)]
    rfl
  have hP : lastValue results ("PRCP") = none := by
    unfold lastValue
    rw [List.filter_eq_nil_iff.mpr (fun r hr => by simpa using (h r hr).2)]
    rfl
  rw [hT, hP]
  rfl

theorem c3_null_fields_witness :
    get_weather_for_observation (.ok [⟨"TMAX", 80⟩, ⟨"TMIN", 40⟩]) = some ⟨none, none⟩ ∧
    get_weather_for_observation (.error ()) = none :=
  c3_null_fields_on_no_match [⟨"TMAX", 80⟩, ⟨"TMIN", 40⟩] () (by decide)

/-! ### Claim theorems: Aggregator crash on null samples -/

/-- C1 (code evaluation at the failing input): one species with
temperature samples `[70, None]` and rain samples `[0.1, 0.2]`.  The
claim (and the spec) says the aggregate is computed over the non-null
samples (mean_temp 70, total_rain 0.3); the code instead feeds the
`None` into `sum` at line 203 and raises TypeError — no aggregate is
produced and the exception propagates.  The `dropna` at line 209, the
code's own null-handling step, is unreachable for such inputs. -/
theorem c1_null_temp_sample_crashes :
    plot_weather_data
        [(1, ⟨0, "A", "10001", "c", "u", some ⟨some 70, some (1/10)⟩⟩),
         (2, ⟨0, "A", "10001", "c", "u", some ⟨none, some (1/5)⟩⟩)] =
      .error PyError.typeError := rfl

/-- C4 (counterexample): a species group with temperature samples
`[60, None]` and rain samples `[0.5, 0.25]` has at least one valid
temperature sample and at least one valid rain sample, yet the
Aggregator emits nothing for it: line 203's `sum` raises TypeError. -/
theorem c4_mixed_null_group_refuted :
    plot_weather_data
        [(1, ⟨0, "M", "10001", "c", "u", some ⟨some 60, some (1/2)⟩⟩),
         (2, ⟨0, "M", "10001", "c", "u", some ⟨none, some (1/4)⟩⟩)] =
      .error PyError.typeError := rfl

/-- C5 (counterexample): a species whose only observation has non-null
weather with a null temperature field is not "dropped entirely" from
the output: the aggregation raises TypeError at line 203 and produces
no output at all. -/
theorem c5_all_null_temp_refuted :
    plot_weather_data [(1, ⟨0, "B", "10001", "c", "u", some ⟨none, some (1/2)⟩⟩)] =
      .error PyError.typeError := rfl

/-! ### Collector lemmas -/

theorem updateAssoc_keys : ∀ (acc : List (Nat × Observation)) (k : Nat) (v : Observation)
    (x : Nat), x ∈ (updateAssoc acc k v).map Prod.fst → x = k ∨ x ∈ acc.map Prod.fst
  | [], k, v, x, h => by
    unfold updateAssoc at h
    simpa using h
  | p :: ps, k, v, x, h => by
    unfold updateAssoc at h
    by_cases hp : p.1 = k
    · rw [if_pos hp] at h
      simp only [List.map_cons, List.mem_cons] at h ⊢
      tauto
    · rw [if_neg hp] at h
      simp only [List.map_cons, List.mem_cons] at h ⊢
      rcases h with h | h
      · exact Or.inr (Or.inl h)
      · rcases updateAssoc_keys ps k v x h with h' | h'
        · exact Or.inl h'
        · exact Or.inr (Or.inr h')

/-- Every key of the collector's output comes from a record of the input
whose processing produced an observation (or was already in the
accumulator). -/
theorem collectLoop_keys : ∀ (now : Int) (rs : List ApiRecord)
    (acc m : List (Nat × Observation)) (x : Nat),
    collectLoop now rs acc = .ok m → x ∈ m.map Prod.fst →
    x ∈ acc.map Prod.fst ∨ ∃ r ∈ rs, r.id = x ∧ ∃ o, processRecord now r = .ok (some o)
  | now, [], acc, m, x, hrun, hx => by
    cases hrun
    exact Or.inl hx
  | now, r :: rs, acc, m, x, hrun, hx => by
    cases hpr : processRecord now r with
    | error e =>
      rw [collectLoop, hpr] at hrun
      cases hrun
    | ok oo =>
      rw [collectLoop, hpr] at hrun
      cases oo with
      | none =>
        rcases collectLoop_keys now rs acc m x hrun hx with h | ⟨r', hr', hid, o, ho⟩
        · exact Or.inl h
        · exact Or.inr ⟨r', List.mem_cons_of_mem _ hr', hid, o, ho⟩
      | some o =>
        rcases collectLoop_keys now rs (updateAssoc acc r.id o) m x hrun hx with
          h | ⟨r', hr', hid, o', ho'⟩
        · rcases updateAssoc_keys acc r.id o x h with h' | h'
          · exact Or.inr ⟨r, List.mem_cons_self r rs, h'.symm, o, hpr⟩
          · exact Or.inl h'
        · exact Or.inr ⟨r', List.mem_cons_of_mem _ hr', hid, o', ho'⟩

theorem processRecord_error_eq (now : Int) (r : ApiRecord) (e : PyError)
    (hkey : r.time_observed_at ≠ none)
    (h : processRecord now r = .error e) : e = PyError.indexError := by
  cases hto : r.time_observed_at with
  | none => exact absurd hto hkey
  | some oo =>
    cases oo with
    | none => simp [processRecord, hto] at h
    | some t =>
      by_cases hlt : t < now - twoDaysSecs
      · cases hz : zipSearch r.place_guess with
        | none => simp [processRecord, hto, hlt, hz] at h
        | some z =>
          cases hph : r.observation_photos with
          | nil =>
            simp only [processRecord, hto, hlt, if_true, hz, hph] at h
            exact (Except.error.inj h).symm
          | cons u us => simp [processRecord, hto, hlt, hz, hph] at h
      · simp [processRecord, hto, hlt] at h

theorem processRecord_triggers (now : Int) (r : ApiRecord)
    (h : triggersIndexError now r) : processRecord now r = .error PyError.indexError := by
  obtain ⟨⟨t, hto, hlt⟩, hzip, hph⟩ := h
  obtain ⟨z, hz⟩ := Option.isSome_iff_exists.mp hzip
  simp [processRecord, hto, hlt, hz, hph]

theorem collectLoop_indexError : ∀ (now : Int) (rs : List ApiRecord)
    (acc : List (Nat × Observation)),
    (∀ r' ∈ rs, r'.time_observed_at ≠ none) →
    (∃ r ∈ rs, triggersIndexError now r) →
    collectLoop now rs acc = .error PyError.indexError
  | _, [], _, _, ⟨r, hr, _⟩ => absurd hr (List.not_mem_nil r)
  | now, r0 :: rs, acc, hkeys, ⟨r, hr, htr⟩ => by
    cases hpr : processRecord now r0 with
    | error e =>
      have he : e = PyError.indexError :=
        processRecord_error_eq now r0 e (hkeys r0 (List.mem_cons_self _ _)) hpr
      subst he
      rw [collectLoop, hpr]
    | ok oo =>
      have hrrs : r ∈ rs := by
        rcases List.mem_cons.mp hr with h | h
        · subst h
          rw [processRecord_triggers now r htr] at hpr
          cases hpr
        · exact h
      cases oo with
      | none =>
        rw [collectLoop, hpr]
        exact collectLoop_indexError now rs acc
          (fun r' hr' => hkeys r' (List.mem_cons_of_mem _ hr')) ⟨r, hrrs, htr⟩
      | some o =>
        rw [collectLoop, hpr]
        exact collectLoop_indexError now rs (updateAssoc acc r0.id o)
          (fun r' hr' => hkeys r' (List.mem_cons_of_mem _ hr')) ⟨r, hrrs, htr⟩

/-- A record whose `time_observed_at` key is missing makes the whole
collector loop fail with an uncaught exception — line 52's subscript
runs before any filter — so no output mapping is produced. -/
theorem collectLoop_missing_key : ∀ (now : Int) (rs : List ApiRecord)
    (acc : List (Nat × Observation)), (∃ r ∈ rs, r.time_observed_at = none) →
    ∃ e, collectLoop now rs acc = .error e
  | _, [], _, ⟨r, hr, _⟩ => absurd hr (List.not_mem_nil r)
  | now, r0 :: rs, acc, ⟨r, hr, hto⟩ => by
    cases hpr : processRecord now r0 with
    | error e =>
      refine ⟨e, ?_⟩
      rw [collectLoop, hpr]
    | ok oo =>
      have hrrs : r ∈ rs := by
        rcases List.mem_cons.mp hr with h | h
        · exfalso
          rw [h] at hto
          rw [show processRecord now r0 = .error PyError.keyError from by
            simp [processRecord, hto]] at hpr
          cases hpr
        · exact h
      cases oo with
      | none =>
        rw [collectLoop, hpr]
        exact collectLoop_missing_key now rs acc ⟨r, hrrs, hto⟩
      | some o =>
        rw [collectLoop, hpr]
        exact collectLoop_missing_key now rs (updateAssoc acc r0.id o) ⟨r, hrrs, hto⟩

/-! ### Claim theorems: Observation Collector -/

/-- C7: a record whose (non-null) observed timestamp is strictly after
`now − 2 days` is excluded from the collector's output mapping,
whatever its other fields: line 54's comparison fails, so lines 57-69
never run for it. -/
theorem c7_fresh_excluded (now : Int) (records : List ApiRecord) (r : ApiRecord)
    (m : List (Nat × Observation)) (t : Int)
    (hmem : r ∈ records)
    (huniq : ∀ r' ∈ records, r'.id = r.id → r' = r)
    (ht : r.time_observed_at = some (some t))
    (hfresh : now - twoDaysSecs < t)
    (hrun : get_inaturalist_observations now (.ok records) = .ok m) :
    r.id ∉ m.map Prod.fst := by
  intro hx
  have hloop : collectLoop now records [] = .ok m := hrun
  rcases collectLoop_keys now records [] m r.id hloop hx with h | ⟨r', hr', hid, o, ho⟩
  · simp at h
  · have hrr : r' = r := huniq r' hr' hid
    subst hrr
    simp only [processRecord, ht] at ho
    rw [if_neg (by omega)] at ho
    cases ho

theorem c7_fresh_witness :
    get_inaturalist_observations 200000
        (.ok [⟨1, some (some 27201), "sp", "a 12345 b", "loc", ["u"]⟩]) = .ok [] ∧
    (1 : Nat) ∉ (([] : List (Nat × Observation)).map Prod.fst) :=
  ⟨rfl, c7_fresh_excluded 200000 [⟨1, some (some 27201), "sp", "a 12345 b", "loc", ["u"]⟩]
    ⟨1, some (some 27201), "sp", "a 12345 b", "loc", ["u"]⟩ [] 27201 (by decide) (by decide)
    rfl (by decide) rfl⟩

/-- C10 (counterexample): a record whose `time_observed_at` key is
missing is NOT silently excluded from the output mapping: line 52's
direct subscript raises KeyError before any filter runs, line 70's
handler catches only `requests.RequestException`, and the collector
fails instead of returning a mapping without the record (the claim
expects `.ok []` here). -/
theorem c10_missing_key_refuted :
    get_inaturalist_observations 200000
        (.ok [⟨2, none, "sp", "q 54321 w", "loc", ["u"]⟩]) =
      .error PyError.keyError := rfl

/-- C10 (amended): a record whose `time_observed_at` is present but
null is silently excluded from the output mapping — line 54's
truthiness test fails — even with photos, coordinates and an
extractable postal code; a record whose `time_observed_at` key is
missing instead raises an uncaught KeyError at line 52, so the
collector produces no output mapping at all rather than skipping the
record. -/
theorem c10_null_vs_missing (now : Int) (records : List ApiRecord) (r : ApiRecord)
    (m : List (Nat × Observation))
    (hmem : r ∈ records)
    (huniq : ∀ r' ∈ records, r'.id = r.id → r' = r)
    (hphotos : r.observation_photos ≠ [])
    (hzip : (zipSearch r.place_guess).isSome = true) :
    (r.time_observed_at = some none →
      get_inaturalist_observations now (.ok records) = .ok m →
      r.id ∉ m.map Prod.fst) ∧
    (r.time_observed_at = none →
      processRecord now r = .error PyError.keyError ∧
      ∀ m', get_inaturalist_observations now (.ok records) ≠ .ok m') := by
  constructor
  · intro ht hrun hx
    rcases collectLoop_keys now records [] m r.id hrun hx with h | ⟨r', hr', hid, o, ho⟩
    · simp at h
    · have hrr : r' = r := huniq r' hr' hid
      rw [hrr] at ho
      simp [processRecord, ht] at ho
  · intro ht
    constructor
    · simp [processRecord, ht]
    · intro m' hrun
      obtain ⟨e, he⟩ := collectLoop_missing_key now records [] ⟨r, hmem, ht⟩
      have hcontra : (Except.error e : Except PyError (List (Nat × Observation))) =
          .ok m' := by
        rw [← he]
        exact hrun
      cases hcontra

theorem c10_null_vs_missing_witness :
    (1 : Nat) ∉ (([] : List (Nat × Observation)).map Prod.fst) ∧
    processRecord 200000 ⟨2, none, "sp", "q 54321 w", "loc", ["u"]⟩ =
      .error PyError.keyError ∧
    get_inaturalist_observations 200000
        (.ok [⟨2, none, "sp", "q 54321 w", "loc", ["u"]⟩]) ≠ .ok [] := by
  refine ⟨?_, ?_, ?_⟩
  · exact (c10_null_vs_missing 200000 [⟨1, some none, "sp", "q 54321 w", "loc", ["u"]⟩]
      ⟨1, some none, "sp", "q 54321 w", "loc", ["u"]⟩ [] (by decide) (by decide)
      (by decide) (by decide)).1 rfl rfl
  · exact ((c10_null_vs_missing 200000 [⟨2, none, "sp", "q 54321 w", "loc", ["u"]⟩]
      ⟨2, none, "sp", "q 54321 w", "loc", ["u"]⟩ [] (by decide) (by decide)
      (by decide) (by decide)).2 rfl).1
  · exact ((c10_null_vs_missing 200000 [⟨2, none, "sp", "q 54321 w", "loc", ["u"]⟩]
      ⟨2, none, "sp", "q 54321 w", "loc", ["u"]⟩ [] (by decide) (by decide)
      (by decide) (by decide)).2 rfl).2 []

/-- C8: a record that passes the timestamp and postal-code filters but
has an empty `observation_photos` array makes the whole collector fail
with IndexError: line 65's `[0]` access is inside the `try` block, but
line 70 only catches `requests.RequestException`, so the failure
propagates out of the function.  The `hkeys` hypothesis states the API
schema every record of a response satisfies — the `time_observed_at`
key is present (possibly null) — without which an earlier record could
fail first with line 52's KeyError (the C10 path) instead. -/
theorem c8_empty_photos_error (now : Int) (records : List ApiRecord) (r : ApiRecord)
    (t : Int)
    (hkeys : ∀ r' ∈ records, r'.time_observed_at ≠ none)
    (hmem : r ∈ records)
    (ht : r.time_observed_at = some (some t))
    (hfresh : t < now - twoDaysSecs)
    (hzip : (zipSearch r.place_guess).isSome = true)
    (hphotos : r.observation_photos = []) :
    get_inaturalist_observations now (.ok records) = .error PyError.indexError := by
  show collectLoop now records [] = _
  exact collectLoop_indexError now records [] hkeys
    ⟨r, hmem, ⟨t, ht, hfresh⟩, hzip, hphotos⟩

theorem c8_empty_photos_witness :
    get_inaturalist_observations 200000
        (.ok [⟨3, some (some 0), "sp", "pp 12345", "loc", []⟩]) =
      .error PyError.indexError :=
  c8_empty_photos_error 200000 [⟨3, some (some 0), "sp", "pp 12345", "loc", []⟩]
    ⟨3, some (some 0), "sp", "pp 12345", "loc", []⟩ 0 (by decide) (by decide) rfl
    (by decide) (by decide) rfl

/-- C9: when the biodiversity request fails (transport error or non-2xx
status raised by `raise_for_status`), the collector logs and returns the
still-empty mapping (lines 70-72), and `main` then reports
no-observations and stops before any enrichment or rendering (lines
274-276). -/
theorem c9_request_failure_empty (now : Int) (u : Unit)
    (weatherFor : String → Int → Option WeatherSample) :
    get_inaturalist_observations now (.error u) = .ok [] ∧
    main now (.error u) weatherFor = .ok MainResult.noObservations :=
  ⟨rfl, rfl⟩

/-! ### Aggregator lemmas -/

theorem pySum_ok : ∀ (l : List (Option ℚ)), (∀ x ∈ l, x.isSome = true) →
    pySum l = .ok (osum l)
  | [], _ => rfl
  | none :: xs, h => absurd (h none (List.mem_cons_self _ _)) (by simp)
  | some v :: xs, h => by
    have ih := pySum_ok xs (fun x hx => h x (List.mem_cons_of_mem _ hx))
    simp only [pySum, ih]
    simp [osum, Except.map]

theorem aggOne_ok (g : SpeciesGroup) (h1 : ∀ x ∈ g.2.1, x.isSome = true)
    (h2 : ∀ x ∈ g.2.2, x.isSome = true) :
    aggOne g = .ok ⟨g.1, pyInt (osum g.2.1 / (g.2.1.length : ℚ)), osum g.2.2⟩ := by
  unfold aggOne
  rw [pySum_ok g.2.1 h1, pySum_ok g.2.2 h2]
  rfl

theorem mapM_aggOne_ok : ∀ (gs : List SpeciesGroup), (∀ g ∈ gs, groupValid g) →
    gs.mapM aggOne =
      .ok (gs.map (fun g => ⟨g.1, pyInt (osum g.2.1 / (g.2.1.length : ℚ)), osum g.2.2⟩))
  | [], _ => rfl
  | g :: gs, h => by
    rw [List.mapM_cons,
      aggOne_ok g (h g (List.mem_cons_self _ _)).1 (h g (List.mem_cons_self _ _)).2,
      mapM_aggOne_ok gs (fun g' hg' => h g' (List.mem_cons_of_mem _ hg'))]
    rfl

theorem addSample_valid : ∀ (gs : List SpeciesGroup) (sp : String) (t r : Option ℚ),
    (∀ g ∈ gs, groupValid g) → t.isSome = true → r.isSome = true →
    ∀ g ∈ addSample gs sp t r, groupValid g
  | [], sp, t, r, _, ht, hr => by
    intro g hg
    simp only [addSample, List.mem_singleton] at hg
    subst hg
    constructor
    · intro x hx
      simp only [List.mem_singleton] at hx
      subst hx
      exact ht
    · intro x hx
      simp only [List.mem_singleton] at hx
      subst hx
      exact hr
  | g0 :: gs, sp, t, r, hgs, ht, hr => by
    intro g hg
    unfold addSample at hg
    by_cases h0 : g0.1 = sp
    · rw [if_pos h0] at hg
      rcases List.mem_cons.mp hg with h | h
      · subst h
        have hg0 := hgs g0 (List.mem_cons_self _ _)
        constructor
        · intro x hx
          rcases List.mem_append.mp hx with hx | hx
          · exact hg0.1 x hx
          · simp only [List.mem_singleton] at hx
            subst hx
            exact ht
        · intro x hx
          rcases List.mem_append.mp hx with hx | hx
          · exact hg0.2 x hx
          · simp only [List.mem_singleton] at hx
            subst hx
            exact hr
      · exact hgs g (List.mem_cons_of_mem _ h)
    · rw [if_neg h0] at hg
      rcases List.mem_cons.mp hg with h | h
      · subst h
        exact hgs _ (List.mem_cons_self _ _)
      · exact addSample_valid gs sp t r (fun g' hg' => hgs g' (List.mem_cons_of_mem _ hg'))
          ht hr g h

theorem buildGroups_valid : ∀ (ps : List (Nat × Observation)) (gs : List SpeciesGroup),
    (∀ p ∈ ps, validWeatherB p = true) → (∀ g ∈ gs, groupValid g) →
    ∀ g ∈ buildGroups ps gs, groupValid g
  | [], _, _, hgs => hgs
  | p :: ps, gs, hp, hgs => by
    cases hw : p.2.weather with
    | none =>
      rw [buildGroups, hw]
      exact buildGroups_valid ps gs (fun q hq => hp q (List.mem_cons_of_mem _ hq)) hgs
    | some w =>
      rw [buildGroups, hw]
      refine buildGroups_valid ps _ (fun q hq => hp q (List.mem_cons_of_mem _ hq)) ?_
      have hv := hp p (List.mem_cons_self _ _)
      simp only [validWeatherB, hw, Bool.and_eq_true] at hv
      exact addSample_valid gs p.2.species w.avg_temp w.rain hgs hv.1 hv.2

theorem keptGroups_valid (observations : List (Nat × Observation))
    (h : ∀ p ∈ observations, validWeatherB p = true) :
    ∀ g ∈ keptGroups observations, groupValid g := by
  intro g hg
  have hg' : g ∈ buildGroups (filterSpecies observations) [] := List.mem_of_mem_filter hg
  exact buildGroups_valid (filterSpecies observations) []
    (fun p hp => h p (List.mem_of_mem_filter hp)) (by simp) g hg'

/-- On inputs whose weather samples are all non-null, the aggregation
succeeds and computes, per kept group, the truncated mean of the
temperature samples and the sum of the rain samples. -/
theorem plot_weather_data_valid (observations : List (Nat × Observation))
    (h : observations.all validWeatherB = true) :
    plot_weather_data observations = .ok (specAggregates observations) := by
  have h' : ∀ p ∈ observations, validWeatherB p = true := by
    intro p hp
    exact List.all_eq_true.mp h p hp
  unfold plot_weather_data specAggregates
  exact mapM_aggOne_ok (keptGroups observations) (keptGroups_valid observations h')

theorem addSample_labels : ∀ (gs : List SpeciesGroup) (sp0 : String) (t r : Option ℚ)
    (sp : String),
    (∃ g ∈ addSample gs sp0 t r, g.1 = sp) ↔ (∃ g ∈ gs, g.1 = sp) ∨ sp0 = sp
  | [], sp0, t, r, sp => by simp [addSample]
  | g0 :: gs, sp0, t, r, sp => by
    unfold addSample
    by_cases h0 : g0.1 = sp0
    · rw [if_pos h0]
      constructor
      · rintro ⟨g, hg, hsp⟩
        rcases List.mem_cons.mp hg with h | h
        · subst h
          exact Or.inr hsp
        · exact Or.inl ⟨g, List.mem_cons_of_mem _ h, hsp⟩
      · rintro (⟨g, hg, hsp⟩ | hsp)
        · rcases List.mem_cons.mp hg with h | h
          · refine ⟨(sp0, g0.2.1 ++ [t], g0.2.2 ++ [r]), List.mem_cons_self _ _, ?_⟩
            show sp0 = sp
            rw [← h0, ← h]
            exact hsp
          · exact ⟨g, List.mem_cons_of_mem _ h, hsp⟩
        · exact ⟨(sp0, g0.2.1 ++ [t], g0.2.2 ++ [r]), List.mem_cons_self _ _, hsp⟩
    · rw [if_neg h0]
      constructor
      · rintro ⟨g, hg, hsp⟩
        rcases List.mem_cons.mp hg with h | h
        · exact Or.inl ⟨g0, List.mem_cons_self _ _, h ▸ hsp⟩
        · rcases (addSample_labels gs sp0 t r sp).mp ⟨g, h, hsp⟩ with ⟨g', hg', hsp'⟩ | hsp'
          · exact Or.inl ⟨g', List.mem_cons_of_mem _ hg', hsp'⟩
          · exact Or.inr hsp'
      · rintro (⟨g, hg, hsp⟩ | hsp)
        · rcases List.mem_cons.mp hg with h | h
          · exact ⟨g0, List.mem_cons_self _ _, h ▸ hsp⟩
          · obtain ⟨g', hg', hsp'⟩ := (addSample_labels gs sp0 t r sp).mpr (Or.inl ⟨g, h, hsp⟩)
            exact ⟨g', List.mem_cons_of_mem _ hg', hsp'⟩
        · obtain ⟨g', hg', hsp'⟩ := (addSample_labels gs sp0 t r sp).mpr (Or.inr hsp)
          exact ⟨g', List.mem_cons_of_mem _ hg', hsp'⟩

theorem buildGroups_labels : ∀ (ps : List (Nat × Observation)) (gs : List SpeciesGroup)
    (sp : String),
    (∃ g ∈ buildGroups ps gs, g.1 = sp) ↔
      (∃ g ∈ gs, g.1 = sp) ∨ ∃ p ∈ ps, p.2.species = sp ∧ p.2.weather.isSome = true
  | [], gs, sp => by simp [buildGroups]
  | p :: ps, gs, sp => by
    cases hw : p.2.weather with
    | none =>
      rw [buildGroups, hw, buildGroups_labels ps gs sp]
      constructor
      · rintro (h | ⟨q, hq, hqs⟩)
        · exact Or.inl h
        · exact Or.inr ⟨q, List.mem_cons_of_mem _ hq, hqs⟩
      · rintro (h | ⟨q, hq, hqs⟩)
        · exact Or.inl h
        · rcases List.mem_cons.mp hq with h' | h'
          · exfalso
            have his := hqs.2
            rw [h', hw] at his
            simp at his
          · exact Or.inr ⟨q, h', hqs⟩
    | some w =>
      rw [buildGroups, hw, buildGroups_labels ps (addSample gs p.2.species w.avg_temp w.rain) sp,
        addSample_labels]
      constructor
      · rintro ((h | hsp) | ⟨q, hq, hqs⟩)
        · exact Or.inl h
        · exact Or.inr ⟨p, List.mem_cons_self _ _, hsp, by rw [hw]; rfl⟩
        · exact Or.inr ⟨q, List.mem_cons_of_mem _ hq, hqs⟩
      · rintro (h | ⟨q, hq, hqs⟩)
        · exact Or.inl (Or.inl h)
        · rcases List.mem_cons.mp hq with h' | h'
          · exact Or.inl (Or.inr (h' ▸ hqs.1))
          · exact Or.inr ⟨q, h', hqs⟩

theorem addSample_lists_nonempty : ∀ (gs : List SpeciesGroup) (sp : String) (t r : Option ℚ),
    (∀ g ∈ gs, g.2.1 ≠ [] ∧ g.2.2 ≠ []) →
    ∀ g ∈ addSample gs sp t r, g.2.1 ≠ [] ∧ g.2.2 ≠ []
  | [], sp, t, r, _ => by
    intro g hg
    simp only [addSample, List.mem_singleton] at hg
    subst hg
    simp
  | g0 :: gs, sp, t, r, hgs => by
    intro g hg
    unfold addSample at hg
    by_cases h0 : g0.1 = sp
    · rw [if_pos h0] at hg
      rcases List.mem_cons.mp hg with h | h
      · subst h
        constructor <;> simp
      · exact hgs g (List.mem_cons_of_mem _ h)
    · rw [if_neg h0] at hg
      rcases List.mem_cons.mp hg with h | h
      · subst h
        exact hgs _ (List.mem_cons_self _ _)
      · exact addSample_lists_nonempty gs sp t r
          (fun g' hg' => hgs g' (List.mem_cons_of_mem _ hg')) g h

theorem buildGroups_lists_nonempty : ∀ (ps : List (Nat × Observation))
    (gs : List SpeciesGroup), (∀ g ∈ gs, g.2.1 ≠ [] ∧ g.2.2 ≠ []) →
    ∀ g ∈ buildGroups ps gs, g.2.1 ≠ [] ∧ g.2.2 ≠ []
  | [], _, hgs => hgs
  | p :: ps, gs, hgs => by
    cases hw : p.2.weather with
    | none =>
      rw [buildGroups, hw]
      exact buildGroups_lists_nonempty ps gs hgs
    | some w =>
      rw [buildGroups, hw]
      exact buildGroups_lists_nonempty ps _
        (addSample_lists_nonempty gs p.2.species w.avg_temp w.rain hgs)

theorem specAggregates_species (observations : List (Nat × Observation)) (sp : String) :
    (∃ a ∈ specAggregates observations, a.species = sp) ↔
      ∃ g ∈ keptGroups observations, g.1 = sp := by
  unfold specAggregates
  constructor
  · rintro ⟨a, ha, hsp⟩
    rcases List.mem_map.mp ha with ⟨g, hg, rfl⟩
    exact ⟨g, hg, hsp⟩
  · rintro ⟨g, hg, hsp⟩
    exact ⟨_, List.mem_map_of_mem _ hg, hsp⟩

theorem keptGroups_species (observations : List (Nat × Observation)) (sp : String) :
    (∃ g ∈ keptGroups observations, g.1 = sp) ↔
      sp ≠ "" ∧ ∃ p ∈ observations, p.2.species = sp ∧ p.2.weather.isSome = true := by
  unfold keptGroups
  constructor
  · rintro ⟨g, hg, hsp⟩
    rw [List.mem_filter] at hg
    obtain ⟨hgmem, hcond⟩ := hg
    simp only [Bool.and_eq_true] at hcond
    refine ⟨?_, ?_⟩
    · rw [← hsp]
      exact bne_iff_ne.mp hcond.1.1
    · have hlab := (buildGroups_labels (filterSpecies observations) [] sp).mp ⟨g, hgmem, hsp⟩
      rcases hlab with h | ⟨p, hp, hps, hw⟩
      · simp at h
      · exact ⟨p, List.mem_of_mem_filter hp, hps, hw⟩
  · rintro ⟨hsp, p, hp, hps, hw⟩
    have hpf : p ∈ filterSpecies observations := by
      rw [filterSpecies, List.mem_filter]
      refine ⟨hp, ?_⟩
      rw [hps]
      exact bne_iff_ne.mpr hsp
    obtain ⟨g, hg, hgsp⟩ :=
      (buildGroups_labels (filterSpecies observations) [] sp).mpr (Or.inr ⟨p, hpf, hps, hw⟩)
    have hne := buildGroups_lists_nonempty (filterSpecies observations) [] (by simp) g hg
    refine ⟨g, ?_, hgsp⟩
    rw [List.mem_filter]
    refine ⟨hg, ?_⟩
    simp only [Bool.and_eq_true]
    refine ⟨⟨?_, ?_⟩, ?_⟩
    · rw [hgsp]
      exact bne_iff_ne.mpr hsp
    · simp [hne.1]
    · simp [hne.2]

/-! ### Claim theorems: Aggregator on valid samples -/

/-- C4 (amended): for inputs all of whose present weather samples are
non-null — on a null sample the aggregation instead raises TypeError,
see the counterexample — the Aggregator emits, per kept species group,
`mean_temp` = integer truncation of the arithmetic mean of the
temperature samples and `total_rain` = their arithmetic sum; the witness
instantiates the claim's example `[70, 80]` / `[0.1, 0.3]` ↦ `(75, 0.4)`. -/
theorem c4_trunc_mean_and_total (observations : List (Nat × Observation))
    (h : observations.all validWeatherB = true) :
    plot_weather_data observations = .ok (specAggregates observations) :=
  plot_weather_data_valid observations h

theorem c4_trunc_mean_witness :
    plot_weather_data
        [(1, ⟨0, "X", "10001", "c", "u", some ⟨some 70, some (1/10)⟩⟩),
         (2, ⟨0, "X", "10001", "c", "u", some ⟨some 80, some (3/10)⟩⟩)] =
      .ok [⟨"X", 75, 2/5⟩] := by
  rw [c4_trunc_mean_and_total _ (by decide)]
  have h1 : keptGroups
      [(1, ⟨0, "X", "10001", "c", "u", some ⟨some 70, some (1/10)⟩⟩),
       (2, ⟨0, "X", "10001", "c", "u", some ⟨some 80, some (3/10)⟩⟩)] =
      [("X", [some (70:ℚ), some 80], [some ((1:ℚ)/10), some (3/10)])] := rfl
  simp only [specAggregates, h1, List.map_cons, List.map_nil]
  norm_num [pyInt, osum, List.filterMap_cons, id_eq, List.sum_cons, List.sum_nil]

/-- C5 (amended): provided every present weather sample has both fields
non-null — otherwise the aggregation raises TypeError instead of
dropping the species, see the counterexample — the output contains
exactly the species with a non-empty label and at least one observation
with non-null weather (under that proviso this coincides with having at
least one valid temperature and one valid rain sample); in particular a
species all of whose observations have null weather is absent. -/
theorem c5_species_characterization (observations : List (Nat × Observation))
    (h : observations.all validWeatherB = true) :
    plot_weather_data observations = .ok (specAggregates observations) ∧
    ∀ sp : String, (∃ a ∈ specAggregates observations, a.species = sp) ↔
      (sp ≠ "" ∧ ∃ p ∈ observations, p.2.species = sp ∧ p.2.weather.isSome = true) := by
  refine ⟨plot_weather_data_valid observations h, fun sp => ?_⟩
  rw [specAggregates_species, keptGroups_species]

theorem c5_species_witness :
    plot_weather_data
        [(1, ⟨0, "X", "10001", "c", "u", some ⟨some 70, some 1⟩⟩),
         (2, ⟨0, "", "10001", "c", "u", some ⟨some 60, some 2⟩⟩),
         (3, ⟨0, "Y", "10001", "c", "u", none⟩)] =
      .ok (specAggregates
        [(1, ⟨0, "X", "10001", "c", "u", some ⟨some 70, some 1⟩⟩),
         (2, ⟨0, "", "10001", "c", "u", some ⟨some 60, some 2⟩⟩),
         (3, ⟨0, "Y", "10001", "c", "u", none⟩)]) ∧
    (specAggregates
        [(1, ⟨0, "X", "10001", "c", "u", some ⟨some 70, some 1⟩⟩),
         (2, ⟨0, "", "10001", "c", "u", some ⟨some 60, some 2⟩⟩),
         (3, ⟨0, "Y", "10001", "c", "u", none⟩)]).map SpeciesAgg.species = ["X"] :=
  ⟨(c5_species_characterization _ (by decide)).1, by rfl⟩

/-! ### Regex lemmas -/

theorem splitDigits_sound : ∀ (n : Nat) (l a b : List Char),
    splitDigits n l = some (a, b) →
    l = a ++ b ∧ a.length = n ∧ ∀ c ∈ a, c.isDigit = true
  | 0, l, a, b, h => by
    simp only [splitDigits, Option.some.injEq, Prod.mk.injEq] at h
    obtain ⟨rfl, rfl⟩ := h
    simp
  | n + 1, [], a, b, h => by simp [splitDigits] at h
  | n + 1, c :: rest, a, b, h => by
    simp only [splitDigits] at h
    by_cases hc : c.isDigit = true
    · rw [if_pos hc] at h
      cases hsp : splitDigits n rest with
      | none => rw [hsp] at h; simp at h
      | some p =>
        rw [hsp] at h
        simp only [Option.map_some', Option.some.injEq, Prod.mk.injEq] at h
        obtain ⟨rfl, rfl⟩ := h
        obtain ⟨h1, h2, h3⟩ := splitDigits_sound n rest p.1 p.2 (by rw [hsp])
        refine ⟨by rw [List.cons_append, ← h1], by simp [h2], ?_⟩
        intro x hx
        rcases List.mem_cons.mp hx with h' | h'
        · subst h'
          exact hc
        · exact h3 x h'
    · rw [if_neg hc] at h
      simp at h

theorem splitDigits_complete : ∀ (a b : List Char), (∀ c ∈ a, c.isDigit = true) →
    splitDigits a.length (a ++ b) = some (a, b)
  | [], b, _ => rfl
  | c :: a, b, h => by
    have ih := splitDigits_complete a b (fun x hx => h x (List.mem_cons_of_mem _ hx))
    show splitDigits (a.length + 1) (c :: (a ++ b)) = some (c :: a, b)
    rw [splitDigits, if_pos (h c (List.mem_cons_self _ _)), ih]
    rfl

theorem isWordChar_of_isDigit (c : Char) (h : c.isDigit = true) : isWordChar c = true := by
  simp [isWordChar, Char.isAlphanum, h]

theorem digit_not_sep (c : Char) (h : c.isDigit = true) : isSepChar c = false := by
  cases hs : isSepChar c
  · rfl
  · exfalso
    simp only [isSepChar, isSpaceChar, Bool.or_eq_true, decide_eq_true_eq, or_assoc] at hs
    rcases hs with h1 | h1 | h1 | h1 | h1 | h1 | h1 <;> subst h1 <;> simp at h

theorem sep_not_word (c : Char) (h : isSepChar c = true) : isWordChar c = false := by
  simp only [isSepChar, isSpaceChar, Bool.or_eq_true, decide_eq_true_eq, or_assoc] at h
  rcases h with h1 | h1 | h1 | h1 | h1 | h1 | h1 <;> subst h1 <;> rfl

theorem boundary_digit (d : Char) (x : Option Char) (h : d.isDigit = true) :
    boundary (some d) x = endBoundary x := by
  have hw : optWord (some d) = true := by
    show isWordChar d = true
    exact isWordChar_of_isDigit d h
  unfold boundary endBoundary
  rw [hw]
  cases optWord x <;> rfl

theorem getLast_digit (l : List Char) (hne : l ≠ []) (hd : ∀ c ∈ l, c.isDigit = true) :
    ∃ d, l.getLast? = some d ∧ d.isDigit = true :=
  ⟨l.getLast hne, List.getLast?_eq_getLast l hne, hd _ (List.getLast_mem hne)⟩

theorem length_eq_four (l : List Char) (h : l.length = 4) :
    ∃ a b c d, l = [a, b, c, d] := by
  cases l with
  | nil => simp at h
  | cons x t =>
    simp only [List.length_cons] at h
    obtain ⟨a, b, c, rfl⟩ := List.length_eq_three.mp (by omega : t.length = 3)
    exact ⟨x, a, b, c, rfl⟩

theorem ne_nil_of_length_five (l : List Char) (h : l.length = 5) : l ≠ [] := by
  intro hnil
  rw [hnil] at h
  simp at h

theorem isZipToken_five (d5 : List Char) (h5 : d5.length = 5)
    (hd : ∀ c ∈ d5, c.isDigit = true) : isZipToken d5 = true := by
  have hs : splitDigits 5 (d5 ++ []) = some (d5, []) := by
    rw [← h5]
    exact splitDigits_complete d5 [] hd
  rw [List.append_nil] at hs
  simp [isZipToken, hs]

theorem isZipToken_nine (d5 d4 : List Char) (h5 : d5.length = 5) (h4 : d4.length = 4)
    (hd5 : ∀ c ∈ d5, c.isDigit = true) (hd4 : ∀ c ∈ d4, c.isDigit = true) :
    isZipToken (d5 ++ d4) = true := by
  have hs : splitDigits 5 (d5 ++ d4) = some (d5, d4) := by
    rw [← h5]
    exact splitDigits_complete d5 d4 hd5
  obtain ⟨a, b, c, d, rfl⟩ := length_eq_four d4 h4
  simp [isZipToken, hs, hd4 a (by simp), hd4 b (by simp), hd4 c (by simp), hd4 d (by simp)]

theorem isZipToken_plus4 (d5 : List Char) (s0 : Char) (d4 : List Char) (h5 : d5.length = 5)
    (hsep : isSepChar s0 = true) (h4 : d4.length = 4)
    (hd5 : ∀ c ∈ d5, c.isDigit = true) (hd4 : ∀ c ∈ d4, c.isDigit = true) :
    isZipToken (d5 ++ s0 :: d4) = true := by
  have hs : splitDigits 5 (d5 ++ s0 :: d4) = some (d5, s0 :: d4) := by
    rw [← h5]
    exact splitDigits_complete d5 _ hd5
  obtain ⟨a, b, c, d, rfl⟩ := length_eq_four d4 h4
  simp [isZipToken, hs, hsep, hd4 a (by simp), hd4 b (by simp), hd4 c (by simp),
    hd4 d (by simp)]

theorem isZipToken_shape (tok : List Char) (h : isZipToken tok = true) : ZipShape tok := by
  unfold isZipToken at h
  cases hs5 : splitDigits 5 tok with
  | none => rw [hs5] at h; cases h
  | some q =>
    rw [hs5] at h
    obtain ⟨d5, rest0⟩ := q
    obtain ⟨heq, hlen, hdig⟩ := splitDigits_sound 5 tok d5 rest0 (by rw [hs5])
    cases rest0 with
    | nil =>
      rw [List.append_nil] at heq
      subst heq
      exact Or.inl ⟨hlen, hdig⟩
    | cons a t1 =>
      cases t1 with
      | nil => exact Bool.noConfusion h
      | cons b t2 =>
        cases t2 with
        | nil => exact Bool.noConfusion h
        | cons c t3 =>
          cases t3 with
          | nil => exact Bool.noConfusion h
          | cons d t4 =>
            cases t4 with
            | nil =>
              have h' : a.isDigit = true ∧ b.isDigit = true ∧ c.isDigit = true ∧
                  d.isDigit = true := by simpa [Bool.and_eq_true, and_assoc] using h
              refine Or.inr (Or.inl ⟨d5, [a, b, c, d], heq, hlen, rfl, hdig, ?_⟩)
              intro x hx
              simp only [List.mem_cons, List.not_mem_nil, or_false] at hx
              rcases hx with rfl | rfl | rfl | rfl <;> tauto
            | cons e t5 =>
              cases t5 with
              | nil =>
                have h' : isSepChar a = true ∧ b.isDigit = true ∧ c.isDigit = true ∧
                    d.isDigit = true ∧ e.isDigit = true := by
                  simpa [Bool.and_eq_true, and_assoc] using h
                refine Or.inr (Or.inr ⟨d5, a, [b, c, d, e], heq, hlen, rfl, h'.1, hdig, ?_⟩)
                intro x hx
                simp only [List.mem_cons, List.not_mem_nil, or_false] at hx
                rcases hx with rfl | rfl | rfl | rfl <;> tauto
              | cons f t6 => exact Bool.noConfusion h

theorem noSepBranch_sound (d5 rest m : List Char) (h5 : d5.length = 5)
    (hd5 : ∀ c ∈ d5, c.isDigit = true) (h : noSepBranch d5 rest = some m) :
    (∃ d4 rest2, rest = d4 ++ rest2 ∧ m = d5 ++ d4 ∧ d4.length = 4 ∧
      (∀ c ∈ d4, c.isDigit = true) ∧ endBoundary rest2.head? = true ∧ isZipToken m = true) ∨
    (m = d5 ∧ endBoundary rest.head? = true ∧ isZipToken m = true) := by
  unfold noSepBranch at h
  cases htp : tryPlus4 rest with
  | some d4 =>
    rw [htp] at h
    have hm : m = d5 ++ d4 := (Option.some.inj h).symm
    unfold tryPlus4 at htp
    cases hs4 : splitDigits 4 rest with
    | none => rw [hs4] at htp; cases htp
    | some p =>
      obtain ⟨d4', rest2⟩ := p
      rw [hs4] at htp
      have htp' : (if endBoundary rest2.head? = true then some d4' else none) = some d4 := htp
      by_cases hend : endBoundary rest2.head? = true
      · rw [if_pos hend] at htp'
        have hp1 : d4' = d4 := Option.some.inj htp'
        rw [← hp1] at hm
        obtain ⟨hr, hl4, hdig4⟩ := splitDigits_sound 4 rest d4' rest2 hs4
        refine Or.inl ⟨d4', rest2, hr, hm, hl4, hdig4, hend, ?_⟩
        rw [hm]
        exact isZipToken_nine d5 d4' h5 hl4 hd5 hdig4
      · rw [if_neg hend] at htp'
        cases htp'
  | none =>
    rw [htp] at h
    by_cases hend : endBoundary rest.head? = true
    · rw [if_pos hend] at h
      have hm : m = d5 := (Option.some.inj h).symm
      subst hm
      exact Or.inr ⟨rfl, hend, isZipToken_five _ h5 hd5⟩
    · rw [if_neg hend] at h
      cases h

theorem noSepBranch_isSome (d5 rest : List Char) (hend : endBoundary rest.head? = true) :
    (noSepBranch d5 rest).isSome = true := by
  unfold noSepBranch
  cases htp : tryPlus4 rest with
  | some d4 => rfl
  | none => rw [if_pos hend]; rfl

theorem afterFive_sound (d5 rest m : List Char) (h5 : d5.length = 5)
    (hd5 : ∀ c ∈ d5, c.isDigit = true) (h : afterFive d5 rest = some m) :
    (∃ c d4 rest2, rest = c :: (d4 ++ rest2) ∧ m = d5 ++ c :: d4 ∧ isSepChar c = true ∧
      d4.length = 4 ∧ (∀ x ∈ d4, x.isDigit = true) ∧ endBoundary rest2.head? = true ∧
      isZipToken m = true) ∨
    (∃ d4 rest2, rest = d4 ++ rest2 ∧ m = d5 ++ d4 ∧ d4.length = 4 ∧
      (∀ x ∈ d4, x.isDigit = true) ∧ endBoundary rest2.head? = true ∧ isZipToken m = true) ∨
    (m = d5 ∧ endBoundary rest.head? = true ∧ isZipToken m = true) := by
  cases rest with
  | nil =>
    rw [afterFive] at h
    rcases noSepBranch_sound d5 [] m h5 hd5 h with
      ⟨d4, rest2, hr, hm, hl4, hdig4, hend, hz⟩ | ⟨hm, hend, hz⟩
    · obtain ⟨hd4nil, _⟩ := List.append_eq_nil.mp hr.symm
      rw [hd4nil] at hl4
      simp at hl4
    · exact Or.inr (Or.inr ⟨hm, hend, hz⟩)
  | cons c rest1 =>
    rw [afterFive] at h
    by_cases hsep : isSepChar c = true
    · rw [if_pos hsep] at h
      cases htp : tryPlus4 rest1 with
      | some d4 =>
        rw [htp] at h
        have hm : m = d5 ++ c :: d4 := (Option.some.inj h).symm
        unfold tryPlus4 at htp
        cases hs4 : splitDigits 4 rest1 with
        | none => rw [hs4] at htp; cases htp
        | some p =>
          obtain ⟨d4', rest2⟩ := p
          rw [hs4] at htp
          have htp' : (if endBoundary rest2.head? = true then some d4' else none) =
              some d4 := htp
          by_cases hend : endBoundary rest2.head? = true
          · rw [if_pos hend] at htp'
            have hp1 : d4' = d4 := Option.some.inj htp'
            rw [← hp1] at hm
            obtain ⟨hr, hl4, hdig4⟩ := splitDigits_sound 4 rest1 d4' rest2 hs4
            refine Or.inl ⟨c, d4', rest2, by rw [hr], hm, hsep, hl4, hdig4, hend, ?_⟩
            rw [hm]
            exact isZipToken_plus4 d5 c d4' h5 hsep hl4 hd5 hdig4
          · rw [if_neg hend] at htp'
            cases htp'
      | none =>
        rw [htp] at h
        rcases noSepBranch_sound d5 (c :: rest1) m h5 hd5 h with
          ⟨d4, rest2, hr, hm, hl4, hdig4, hend, hz⟩ | ⟨hm, hend, hz⟩
        · exact Or.inr (Or.inl ⟨d4, rest2, hr, hm, hl4, hdig4, hend, hz⟩)
        · exact Or.inr (Or.inr ⟨hm, hend, hz⟩)
    · rw [if_neg hsep] at h
      rcases noSepBranch_sound d5 (c :: rest1) m h5 hd5 h with
        ⟨d4, rest2, hr, hm, hl4, hdig4, hend, hz⟩ | ⟨hm, hend, hz⟩
      · exact Or.inr (Or.inl ⟨d4, rest2, hr, hm, hl4, hdig4, hend, hz⟩)
      · exact Or.inr (Or.inr ⟨hm, hend, hz⟩)

theorem matchAt_sound (prev : Option Char) (l m : List Char) (h : matchAt prev l = some m) :
    isZipToken m = true ∧ ∃ rest', l = m ++ rest' ∧ boundary prev m.head? = true ∧
      boundary m.getLast? rest'.head? = true := by
  unfold matchAt at h
  by_cases hb : boundary prev l.head? = true
  case neg => rw [if_neg hb] at h; cases h
  rw [if_pos hb] at h
  cases hs5 : splitDigits 5 l with
  | none => rw [hs5] at h; cases h
  | some q =>
    rw [hs5] at h
    obtain ⟨d5, rest0⟩ := q
    obtain ⟨heq, hlen, hdig⟩ := splitDigits_sound 5 l d5 rest0 (by rw [hs5])
    have hne5 : d5 ≠ [] := ne_nil_of_length_five d5 hlen
    have hhead : l.head? = d5.head? := by
      rw [heq]
      exact List.head?_append_of_ne_nil d5 hne5
    rcases afterFive_sound d5 rest0 m hlen hdig h with
      ⟨c, d4, rest2, hr, hm, hsep, hl4, hdig4, hend, hz⟩ |
      ⟨d4, rest2, hr, hm, hl4, hdig4, hend, hz⟩ | ⟨hm, hend, hz⟩
    · have hne4 : d4 ≠ [] := by
        intro hnil
        rw [hnil] at hl4
        simp at hl4
      refine ⟨hz, rest2, ?_, ?_, ?_⟩
      · rw [heq, hr, hm]
        simp
      · rw [hm, List.head?_append_of_ne_nil d5 hne5, ← hhead]
        exact hb
      · obtain ⟨dl, hdl, hdldig⟩ := getLast_digit d4 hne4 hdig4
        rw [hm, List.getLast?_append_cons d5 c d4,
          show (c :: d4) = [c] ++ d4 from rfl,
          List.getLast?_append_of_ne_nil [c] hne4, hdl, boundary_digit dl _ hdldig]
        exact hend
    · have hne4 : d4 ≠ [] := by
        intro hnil
        rw [hnil] at hl4
        simp at hl4
      refine ⟨hz, rest2, ?_, ?_, ?_⟩
      · rw [heq, hr, hm]
        simp
      · rw [hm, List.head?_append_of_ne_nil d5 hne5, ← hhead]
        exact hb
      · obtain ⟨dl, hdl, hdldig⟩ := getLast_digit d4 hne4 hdig4
        rw [hm, List.getLast?_append_of_ne_nil d5 hne4, hdl, boundary_digit dl _ hdldig]
        exact hend
    · subst hm
      refine ⟨hz, rest0, heq, ?_, ?_⟩
      · rw [← hhead]
        exact hb
      · obtain ⟨dl, hdl, hdldig⟩ := getLast_digit m hne5 hdig
        rw [hdl, boundary_digit dl _ hdldig]
        exact hend

theorem afterFive_isSome (d5 rest : List Char) (hend : endBoundary rest.head? = true) :
    (afterFive d5 rest).isSome = true := by
  cases rest with
  | nil =>
    rw [afterFive]
    exact noSepBranch_isSome d5 [] hend
  | cons c rest1 =>
    rw [afterFive]
    by_cases hsep : isSepChar c = true
    · rw [if_pos hsep]
      cases htp : tryPlus4 rest1 with
      | some d4 => rfl
      | none => exact noSepBranch_isSome d5 (c :: rest1) hend
    · rw [if_neg hsep]
      exact noSepBranch_isSome d5 (c :: rest1) hend

theorem matchAt_isSome_of_shape (prev : Option Char) (tok post : List Char)
    (hshape : ZipShape tok)
    (hb1 : boundary prev tok.head? = true)
    (hb2 : boundary tok.getLast? post.head? = true) :
    (matchAt prev (tok ++ post)).isSome = true := by
  rcases hshape with ⟨hlen, hdig⟩ | ⟨d5, d4, rfl, h5, h4, hd5, hd4⟩ |
    ⟨d5, c0, d4, rfl, h5, h4, hsep, hd5, hd4⟩
  · have hne : tok ≠ [] := ne_nil_of_length_five tok hlen
    have hsplit : splitDigits 5 (tok ++ post) = some (tok, post) := by
      rw [← hlen]
      exact splitDigits_complete tok post hdig
    have hb1' : boundary prev (tok ++ post).head? = true := by
      rw [List.head?_append_of_ne_nil tok hne]
      exact hb1
    have hend : endBoundary post.head? = true := by
      obtain ⟨dl, hdl, hdldig⟩ := getLast_digit tok hne hdig
      rw [hdl, boundary_digit dl _ hdldig] at hb2
      exact hb2
    unfold matchAt
    rw [if_pos hb1', hsplit]
    exact afterFive_isSome tok post hend
  · have hne5 : d5 ≠ [] := ne_nil_of_length_five d5 h5
    have hne4 : d4 ≠ [] := by
      intro hnil
      rw [hnil] at h4
      simp at h4
    have hend : endBoundary post.head? = true := by
      obtain ⟨dl, hdl, hdldig⟩ := getLast_digit d4 hne4 hd4
      rw [List.getLast?_append_of_ne_nil d5 hne4, hdl, boundary_digit dl _ hdldig] at hb2
      exact hb2
    have hb1' : boundary prev ((d5 ++ d4) ++ post).head? = true := by
      rw [List.append_assoc, List.head?_append_of_ne_nil d5 hne5]
      rw [List.head?_append_of_ne_nil d5 hne5] at hb1
      exact hb1
    have hsplit : splitDigits 5 (d5 ++ (d4 ++ post)) = some (d5, d4 ++ post) := by
      rw [← h5]
      exact splitDigits_complete d5 _ hd5
    unfold matchAt
    rw [List.append_assoc, if_pos (by rw [← List.append_assoc]; exact hb1'), hsplit]
    obtain ⟨a, b, c, d, rfl⟩ := length_eq_four d4 h4
    show (afterFive d5 (a :: ([b, c, d] ++ post))).isSome = true
    rw [afterFive, if_neg (by simp [digit_not_sep a (hd4 a (by simp))])]
    unfold noSepBranch
    have htp : tryPlus4 (a :: ([b, c, d] ++ post)) = some [a, b, c, d] := by
      unfold tryPlus4
      have hsp4 : splitDigits 4 ([a, b, c, d] ++ post) = some ([a, b, c, d], post) := by
        have h4' : ([a, b, c, d] : List Char).length = 4 := rfl
        rw [← h4']
        exact splitDigits_complete [a, b, c, d] post hd4
      rw [show (a :: ([b, c, d] ++ post)) = [a, b, c, d] ++ post from rfl, hsp4]
      show (if endBoundary post.head? = true then some [a, b, c, d] else none) =
        some [a, b, c, d]
      rw [if_pos hend]
    rw [htp]
    rfl
  · have hne5 : d5 ≠ [] := ne_nil_of_length_five d5 h5
    have hne4 : d4 ≠ [] := by
      intro hnil
      rw [hnil] at h4
      simp at h4
    have hend : endBoundary post.head? = true := by
      obtain ⟨dl, hdl, hdldig⟩ := getLast_digit d4 hne4 hd4
      rw [List.getLast?_append_cons d5 c0 d4, show (c0 :: d4) = [c0] ++ d4 from rfl,
        List.getLast?_append_of_ne_nil [c0] hne4, hdl, boundary_digit dl _ hdldig] at hb2
      exact hb2
    have hb1' : boundary prev (d5 ++ (c0 :: (d4 ++ post))).head? = true := by
      rw [List.head?_append_of_ne_nil d5 hne5]
      rw [List.head?_append_of_ne_nil d5 hne5] at hb1
      exact hb1
    have hsplit : splitDigits 5 (d5 ++ (c0 :: (d4 ++ post))) = some (d5, c0 :: (d4 ++ post)) := by
      rw [← h5]
      exact splitDigits_complete d5 _ hd5
    have hstep : (d5 ++ c0 :: d4) ++ post = d5 ++ (c0 :: (d4 ++ post)) := by simp
    rw [hstep]
    unfold matchAt
    rw [if_pos hb1', hsplit]
    show (afterFive d5 (c0 :: (d4 ++ post))).isSome = true
    rw [afterFive, if_pos hsep]
    have htp : tryPlus4 (d4 ++ post) = some d4 := by
      unfold tryPlus4
      rw [show splitDigits 4 (d4 ++ post) = some (d4, post) from by
        rw [← h4]; exact splitDigits_complete d4 post hd4]
      show (if endBoundary post.head? = true then some d4 else none) = some d4
      rw [if_pos hend]
    rw [htp]
    rfl

theorem reSearch_none_matchAt (prev : Option Char) (l : List Char)
    (h : reSearch prev l = none) : matchAt prev l = none := by
  cases l with
  | nil => exact h
  | cons c rest =>
    rw [reSearch] at h
    cases hm : matchAt prev (c :: rest) with
    | some m => rw [hm] at h; cases h
    | none => rfl

theorem lastCtx_cons (prev : Option Char) (c : Char) (pre : List Char) :
    lastCtx prev (c :: pre) = lastCtx (some c) pre := by
  unfold lastCtx
  rw [getLast?_cons_or]
  cases pre.getLast? <;> rfl

theorem reSearch_none_no_match : ∀ (pre : List Char) (prev : Option Char) (rest : List Char),
    reSearch prev (pre ++ rest) = none → matchAt (lastCtx prev pre) rest = none
  | [], prev, rest, h => by
    have h' := reSearch_none_matchAt prev rest (by simpa using h)
    simpa [lastCtx] using h'
  | c :: pre', prev, rest, h => by
    rw [List.cons_append, reSearch] at h
    cases hm : matchAt prev (c :: (pre' ++ rest)) with
    | some m => rw [hm] at h; cases h
    | none =>
      rw [hm] at h
      rw [lastCtx_cons]
      exact reSearch_none_no_match pre' (some c) rest h

theorem reSearch_sound : ∀ (l : List Char) (prev : Option Char) (m : List Char),
    reSearch prev l = some m →
    ∃ pre post, l = pre ++ m ++ post ∧ boundary (lastCtx prev pre) m.head? = true ∧
      boundary m.getLast? post.head? = true ∧ isZipToken m = true
  | [], prev, m, h => by
    obtain ⟨hz, rest', heq, hb1, hb2⟩ := matchAt_sound prev [] m h
    exact ⟨[], rest', by simpa using heq, by simpa [lastCtx] using hb1, hb2, hz⟩
  | c :: rest, prev, m, h => by
    cases hm : matchAt prev (c :: rest) with
    | some m' =>
      have hmm : m' = m := by
        rw [reSearch, hm] at h
        exact Option.some.inj h
      subst hmm
      obtain ⟨hz, rest', heq, hb1, hb2⟩ := matchAt_sound prev (c :: rest) m' hm
      exact ⟨[], rest', by simpa using heq, by simpa [lastCtx] using hb1, hb2, hz⟩
    | none =>
      have h' : reSearch (some c) rest = some m := by
        rw [reSearch, hm] at h
        exact h
      obtain ⟨pre, post, heq, hb1, hb2, hz⟩ := reSearch_sound rest (some c) m h'
      refine ⟨c :: pre, post, ?_, ?_, hb2, hz⟩
      · simp [heq]
      · rw [lastCtx_cons]
        exact hb1

theorem zipSearch_sound (s z : String) (h : zipSearch s = some z) :
    isZipToken z.toList = true ∧ occursDelimited s z.toList := by
  unfold zipSearch at h
  cases hr : reSearch none s.toList with
  | none => rw [hr] at h; cases h
  | some m =>
    rw [hr] at h
    have hz : z = String.mk m := (Option.some.inj h).symm
    have hzl : z.toList = m := by
      rw [hz]
      rfl
    obtain ⟨pre, post, heq, hb1, hb2, hzt⟩ := reSearch_sound s.toList none m hr
    rw [hzl]
    refine ⟨hzt, pre, post, heq, ?_, hb2⟩
    unfold lastCtx at hb1
    rw [Option.or_none] at hb1
    exact hb1

theorem zipSearch_isSome_of_token (s : String) (tok : List Char)
    (htok : isZipToken tok = true) (hocc : occursDelimited s tok) :
    (zipSearch s).isSome = true := by
  obtain ⟨pre, post, heq, hb1, hb2⟩ := hocc
  cases hr : reSearch none s.toList with
  | some m =>
    unfold zipSearch
    rw [hr]
    rfl
  | none =>
    exfalso
    have hmat := reSearch_none_no_match pre none (tok ++ post)
      (by rw [← List.append_assoc, ← heq]; exact hr)
    have hb1' : boundary (lastCtx none pre) tok.head? = true := by
      unfold lastCtx
      rw [Option.or_none]
      exact hb1
    have hsome := matchAt_isSome_of_shape (lastCtx none pre) tok post
      (isZipToken_shape tok htok) hb1' hb2
    rw [hmat] at hsome
    cases hsome

/-! ### Claim theorem: postal-code extraction -/

/-- C6: every value the postal-code extractor returns is a 5-digit or
ZIP+4 token occurring in the place description delimited by word
boundaries; the extractor succeeds exactly on strings containing such a
token; and a record whose place description contains none is excluded
from the collector's output mapping (line 59's guard). -/
theorem c6_zip_extraction (s : String) :
    (∀ z, zipSearch s = some z → isZipToken z.toList = true ∧ occursDelimited s z.toList) ∧
    ((∃ tok, isZipToken tok = true ∧ occursDelimited s tok) → (zipSearch s).isSome = true) ∧
    (zipSearch s = none → ∀ (now : Int) (records : List ApiRecord) (r : ApiRecord)
      (m : List (Nat × Observation)), r ∈ records → r.place_guess = s →
      (∀ r' ∈ records, r'.id = r.id → r' = r) →
      get_inaturalist_observations now (.ok records) = .ok m → r.id ∉ m.map Prod.fst) := by
  refine ⟨fun z hz => zipSearch_sound s z hz, ?_, ?_⟩
  · rintro ⟨tok, htok, hocc⟩
    exact zipSearch_isSome_of_token s tok htok hocc
  · intro hnone now records r m hmem hplace huniq hrun hx
    rcases collectLoop_keys now records [] m r.id hrun hx with h | ⟨r', hr', hid, o, ho⟩
    · simp at h
    · have hrr : r' = r := huniq r' hr' hid
      rw [hrr] at ho
      cases hto : r.time_observed_at with
      | none => simp [processRecord, hto] at ho
      | some oo =>
        cases oo with
        | none => simp [processRecord, hto] at ho
        | some t =>
          by_cases hlt : t < now - twoDaysSecs
          · rw [← hplace] at hnone
            simp [processRecord, hto, hlt, hnone] at ho
          · simp [processRecord, hto, hlt] at ho

theorem c6_zip_witness :
    (isZipToken (String.toList ("78701-1234")) = true ∧
      occursDelimited ("Austin TX 78701-1234 USA") (String.toList ("78701-1234"))) ∧
    (zipSearch ("Austin TX 78701-1234 USA")).isSome = true ∧
    (4 : Nat) ∉ (([] : List (Nat × Observation)).map Prod.fst) := by
  refine ⟨?_, ?_, ?_⟩
  · exact (c6_zip_extraction ("Austin TX 78701-1234 USA")).1 ("78701-1234") (by rfl)
  · exact (c6_zip_extraction ("Austin TX 78701-1234 USA")).2.1
      ⟨String.toList ("78701-1234"), by decide,
        String.toList ("Austin TX "), String.toList (" USA"), by decide, by decide, by decide⟩
  · exact (c6_zip_extraction ("hello world")).2.2 rfl 0
      [⟨4, some (some (-1000000)), "sp", "hello world", "loc", ["u"]⟩]
      ⟨4, some (some (-1000000)), "sp", "hello world", "loc", ["u"]⟩ [] (by decide) rfl
      (by decide) rfl

end CritterFinder
